import Mathlib

/-!
Shallow embedding of `src/api/src/extensions.ts` (the Directus runtime
extension manager).  The manager's mutable fields together with the external
resources it mutates (node-cron tasks, the eventemitter2 bus, the express
router stack, the require cache, the logger output) form one explicit state
record `World`.  External collaborators (filesystem discovery, module loading,
node-cron validation, rollup, the package installer) are modelled as oracles
passed to every operation: one oracle value fixes the outcome of each
collaborator call during one lifecycle operation.
-/

namespace Extensions

/-- Extension types.  The closed enumeration `EXTENSION_TYPES` from
`@directus/shared/constants` (hook, endpoint, and the app-only UI types). -/
inductive ExtensionType
  | interfaceType
  | display
  | layout
  | moduleType
  | hook
  | endpoint
deriving DecidableEq, Repr

/-- Modelled from the spec: `APP_EXTENSION_TYPES` from
`@directus/shared/constants` (not under `src/`): the fixed enumerated list of
UI-facing extension types iterated by the bundle generator. -/
def APP_EXTENSION_TYPES : List ExtensionType :=
  [.interfaceType, .display, .layout, .moduleType]

/-- An extension descriptor as produced by discovery
(`@directus/shared/types` `Extension`): name, type, filesystem path and
optional entrypoint. -/
structure Extension where
  name : String
  type : ExtensionType
  path : String
  entrypoint : Option String
deriving DecidableEq, Repr

/-- Model of `path.resolve(base, entry)` as used on extension paths. -/
def pathResolve (base entry : String) : String :=
  if entry = "" then base else base ++ "/" ++ entry

/-- The resolved module path of an extension:
`path.resolve(ext.path, ext.entrypoint || '')`. -/
def Extension.resolvedPath (e : Extension) : String :=
  pathResolve e.path (e.entrypoint.getD "")

/-- One record of the manager's `apiHooks` list: either a registered cron
task (holding the scheduled task handle, modelled by its id) or a registered
event-bus subscription (event name plus exact handler identity, handlers
modelled by ids). -/
inductive ApiHook
  | cron (path : String) (taskId : Nat)
  | event (path : String) (ev : String) (handler : Nat)
deriving DecidableEq, Repr

/-- The manager state plus the external resources it mutates.
Fields `isInitialized` through `isScheduleHookEnabled` are the private fields
of `ExtensionManager`; `activeTasks`/`nextTaskId` model the node-cron
scheduler (ids of tasks that are scheduled and not destroyed),
`emitter` the eventemitter2 listener multiset, `moduleCache` the require
cache, and `log` the logger output. -/
structure World where
  isInitialized : Bool
  extensions : List Extension
  appExtensions : List (ExtensionType × String)
  apiHooks : List ApiHook
  apiEndpoints : List String
  routerStack : List String
  isScheduleHookEnabled : Bool
  activeTasks : List Nat
  nextTaskId : Nat
  emitter : List (String × Nat)
  moduleCache : List String
  log : List String
deriving DecidableEq, Repr

/-- The default export of an endpoint extension module: either a plain
registration function or an object with an `id` and a `handler` registration
function.  The registration function itself is extension code; it is modelled
by the outcome of calling it. -/
inductive EndpointConfig
  | fn (registerOutcome : Except Unit Unit)
  | obj (id : String) (registerOutcome : Except Unit Unit)

/-- Environment configuration consumed by the manager. -/
structure EnvConfig where
  SERVE_APP : Bool

/-- Outcomes of all external collaborator calls made during one lifecycle
operation.  `hookModule p` combines `require(p)`, `getModuleDefault` and the
call of the hook registration function: on success it yields the returned
mapping from event-name strings to handler ids, in entry order.
`endpointModule p` combines `require(p)` and `getModuleDefault` for an
endpoint module.  `cronValidate` is node-cron `validate`; `rollupBundle` is
one rollup invocation for one app extension type given the discovered
extensions; `sharedDepsOutcome` is the `getSharedDepsMapping` readdir.
`nameRegexTest` — Modelled from the spec: `EXTENSION_NAME_REGEX` from
`@directus/shared/constants` (not under `src/`), the extension-name pattern,
represented abstractly as a predicate on names.
`installPackage` is the external package installer. -/
structure Oracles where
  env : EnvConfig
  ensureDirsOutcome : Except Unit Unit
  packageExtensions : Except Unit (List Extension)
  localExtensions : Except Unit (List Extension)
  hookModule : String → Except Unit (List (String × Nat))
  endpointModule : String → Except Unit EndpointConfig
  cronValidate : String → Bool
  sharedDepsOutcome : Except Unit Unit
  rollupBundle : ExtensionType → List Extension → Except Unit String
  nameRegexTest : String → Bool
  installPackage : String → Bool

/-- Insertion into the require cache (caching a path twice is a no-op). -/
def cacheAdd (cache : List String) (p : String) : List String :=
  if p ∈ cache then cache else cache ++ [p]

/-- Deletion from the require cache. -/
def cacheDelete (cache : List String) (p : String) : List String :=
  cache.filter (fun q => q != p)

/-- Modelled from the spec: `REGEX_BETWEEN_PARENS` from
`@directus/shared/constants` (not under `src/`): the first nonempty run of
characters other than a closing parenthesis that is enclosed in parentheses.
Auxiliary scan over the character list. -/
def betweenParensAux : List Char → Option (List Char)
  | [] => none
  | c :: rest =>
    if c = '(' then
      if rest.takeWhile (fun d => d ≠ ')') ≠ [] ∧
          rest.dropWhile (fun d => d ≠ ')') ≠ [] then
        some (rest.takeWhile (fun d => d ≠ ')'))
      else betweenParensAux rest
    else betweenParensAux rest

/-- Model of `event.match(REGEX_BETWEEN_PARENS)?.[1]`. -/
def matchBetweenParens (s : String) : Option String :=
  (betweenParensAux s.data).map (fun cs => { data := cs })

/-- Model of `String.startsWith` (structurally recursive over the character
lists, so that concrete runs reduce in the kernel). -/
def strStartsWith (s pre : String) : Bool :=
  pre.data.isPrefixOf s.data

/-- The warning logged for an invalid cron entry (`undefined` is what the
template literal prints for an absent capture). -/
def cronWarnMsg (c : Option String) : String :=
  "Could not register cron hook. Provided cron is invalid: " ++ c.getD "undefined"

/-- One iteration of the entries loop of `registerHook`
(`extensions.ts` lines 242-275): a cron-marked key is parsed and validated
(invalid: warn and skip), a valid one schedules a task and records it, any
other key subscribes the handler on the event bus and records it. -/
def registerHookEntry (O : Oracles) (hookPath : String) (w : World)
    (entry : String × Nat) : World :=
  if strStartsWith entry.1 "cron(" then
    match matchBetweenParens entry.1 with
    | none => { w with log := w.log ++ [cronWarnMsg none] }
    | some cron =>
      if O.cronValidate cron = false then
        { w with log := w.log ++ [cronWarnMsg (some cron)] }
      else
        { w with
          activeTasks := w.activeTasks ++ [w.nextTaskId]
          apiHooks := w.apiHooks ++ [.cron hookPath w.nextTaskId]
          nextTaskId := w.nextTaskId + 1 }
  else
    { w with
      emitter := w.emitter ++ [(entry.1, entry.2)]
      apiHooks := w.apiHooks ++ [.event hookPath entry.1 entry.2] }

/-- `registerHook` (`extensions.ts` lines 234-276): resolve the entrypoint,
load the module and call its registration function (an error here is the
exception the caller catches), then process every returned entry. -/
def registerHook (O : Oracles) (hk : Extension) (w : World) :
    World × Except Unit Unit :=
  match O.hookModule hk.resolvedPath with
  | .error e => (w, .error e)
  | .ok events =>
    let w1 := { w with moduleCache := cacheAdd w.moduleCache hk.resolvedPath }
    (events.foldl (registerHookEntry O hk.resolvedPath) w1, .ok ())

/-- One iteration of the `registerHooks` loop: per-extension try/catch. -/
def registerHookCaught (O : Oracles) (w : World) (hk : Extension) : World :=
  match registerHook O hk w with
  | (w1, .ok _) => w1
  | (w1, .error _) =>
    { w1 with log := w1.log ++ ["Could not register hook " ++ hk.name] }

/-- `registerHooks` (`extensions.ts` lines 208-219). -/
def registerHooks (O : Oracles) (w : World) : World :=
  (w.extensions.filter (fun e => e.type == .hook)).foldl (registerHookCaught O) w

/-- The mount name chosen by `registerEndpoint`: the extension's own name for
a plain function export, the object's `id` otherwise. -/
def endpointRouteName (ep : Extension) (mod : EndpointConfig) : String :=
  match mod with
  | .fn _ => ep.name
  | .obj i _ => i

/-- `registerEndpoint` (`extensions.ts` lines 278-295): load the module
(failure is an exception for the caller), mount a fresh scoped router on the
shared router at `/<mount-name>`, call the registration function (mounting
happens first, so a throwing registration leaves the mount in place but does
not record the endpoint), then record the extension path. -/
def registerEndpoint (O : Oracles) (ep : Extension) (w : World) :
    World × Except Unit Unit :=
  match O.endpointModule ep.resolvedPath with
  | .error e => (w, .error e)
  | .ok mod =>
    let w1 := { w with
      moduleCache := cacheAdd w.moduleCache ep.resolvedPath
      routerStack := w.routerStack ++ ["/" ++ endpointRouteName ep mod] }
    match mod with
    | .fn r | .obj _ r =>
      match r with
      | .error e => (w1, .error e)
      | .ok _ =>
        ({ w1 with apiEndpoints := w1.apiEndpoints ++ [ep.resolvedPath] }, .ok ())

/-- One iteration of the `registerEndpoints` loop: per-extension try/catch. -/
def registerEndpointCaught (O : Oracles) (w : World) (ep : Extension) : World :=
  match registerEndpoint O ep w with
  | (w1, .ok _) => w1
  | (w1, .error _) =>
    { w1 with log := w1.log ++ ["Could not register endpoint " ++ ep.name] }

/-- `registerEndpoints` (`extensions.ts` lines 221-232). -/
def registerEndpoints (O : Oracles) (w : World) : World :=
  (w.extensions.filter (fun e => e.type == .endpoint)).foldl
    (registerEndpointCaught O) w

/-- `getExtensions` (`extensions.ts` lines 148-159): package extensions
followed by local extensions; either enumeration may throw. -/
def getExtensions (O : Oracles) : Except Unit (List Extension) :=
  match O.packageExtensions with
  | .error e => .error e
  | .ok pkg =>
    match O.localExtensions with
    | .error e => .error e
    | .ok loc => .ok (pkg ++ loc)

/-- The per-type loop of `generateExtensionBundles` (`extensions.ts` lines
170-184): one rollup invocation per app extension type, in list order; the
first failure aborts the whole pass. -/
def generateBundlesGo (O : Oracles) (exts : List Extension) :
    List ExtensionType → List (ExtensionType × String) →
    Except Unit (List (ExtensionType × String))
  | [], acc => .ok acc
  | t :: ts, acc =>
    match O.rollupBundle t exts with
    | .error e => .error e
    | .ok code => generateBundlesGo O exts ts (acc ++ [(t, code)])

/-- `generateExtensionBundles` (`extensions.ts` lines 161-187): shared
dependency resolution (its readdir may throw), then one bundle per app
extension type; no per-type isolation. -/
def generateExtensionBundles (O : Oracles) (exts : List Extension) :
    Except Unit (List (ExtensionType × String)) :=
  match O.sharedDepsOutcome with
  | .error e => .error e
  | .ok _ => generateBundlesGo O exts APP_EXTENSION_TYPES []

/-- `listExtensions` (`extensions.ts` lines 132-138): names of all
extensions, or of the extensions of one type. -/
def listExtensions (w : World) (type : Option ExtensionType) : List String :=
  match type with
  | none => w.extensions.map Extension.name
  | some t => (w.extensions.filter (fun e => e.type == t)).map Extension.name

/-- The discovery try/catch of `initialize` (`extensions.ts` lines 80-87):
on success the descriptor list is replaced, on failure a warning is logged
and the descriptor list keeps its previous value. -/
def discoveryStep (O : Oracles) (w : World) : World :=
  match O.ensureDirsOutcome with
  | .error _ => { w with log := w.log ++ ["Could not load extensions"] }
  | .ok _ =>
    match getExtensions O with
    | .error _ => { w with log := w.log ++ ["Could not load extensions"] }
    | .ok exts => { w with extensions := exts }

/-- The flag write, discovery and registration part of `initialize`
(`extensions.ts` lines 76, 80-90): set the schedule flag, run discovery,
register hooks, register endpoints. -/
def registrationPhase (O : Oracles) (schedule : Bool) (w : World) : World :=
  registerEndpoints O (registerHooks O
    (discoveryStep O { w with isScheduleHookEnabled := schedule }))

/-- The tail of `initialize` (`extensions.ts` lines 96-101): log the loaded
extension names when there are any, then set the initialized flag. -/
def finishInit (w : World) : World × Except Unit Unit :=
  let w1 :=
    if (listExtensions w none).length > 0 then
      { w with log := w.log ++
        ["Loaded extensions: " ++ String.intercalate ", " (listExtensions w none)] }
    else w
  ({ w1 with isInitialized := true }, .ok ())

/-- `ExtensionManager.initialize` (`extensions.ts` lines 75-102).  The
schedule flag is written before the idempotency guard; when the manager is
already initialized nothing else happens.  Otherwise: discovery (errors
caught), hook and endpoint registration, then in app-serving mode bundle
generation whose failure propagates, and finally the initialized flag. -/
def initializeMgr (O : Oracles) (schedule : Bool) (w : World) :
    World × Except Unit Unit :=
  if w.isInitialized then
    ({ w with isScheduleHookEnabled := schedule }, .ok ())
  else
    let w1 := registrationPhase O schedule w
    if O.env.SERVE_APP then
      match generateExtensionBundles O w1.extensions with
      | .error e => (w1, .error e)
      | .ok bundles => finishInit { w1 with appExtensions := bundles }
    else finishInit w1

/-- One iteration of the `unregisterHooks` loop (`extensions.ts` lines
298-306): destroy the scheduled task of a cron record, unsubscribe the exact
handler of an event record, and evict the module from the require cache. -/
def unregisterHookStep (w : World) (h : ApiHook) : World :=
  match h with
  | .cron p tid =>
    { w with
      activeTasks := w.activeTasks.erase tid
      moduleCache := cacheDelete w.moduleCache p }
  | .event p ev hd =>
    { w with
      emitter := w.emitter.erase (ev, hd)
      moduleCache := cacheDelete w.moduleCache p }

/-- `unregisterHooks` (`extensions.ts` lines 297-309). -/
def unregisterHooks (w : World) : World :=
  { w.apiHooks.foldl unregisterHookStep w with apiHooks := [] }

/-- `unregisterEndpoints` (`extensions.ts` lines 311-319): evict every
recorded module, clear the shared router stack wholesale, clear the list. -/
def unregisterEndpoints (w : World) : World :=
  { w.apiEndpoints.foldl
      (fun w1 p => { w1 with moduleCache := cacheDelete w1.moduleCache p }) w with
    routerStack := []
    apiEndpoints := [] }

/-- The teardown part of `reload` (`extensions.ts` lines 107-116): log,
unregister hooks and endpoints, clear the bundle map in app-serving mode,
clear the initialized flag. -/
def teardown (O : Oracles) (w : World) : World :=
  let w1 := unregisterEndpoints (unregisterHooks
    { w with log := w.log ++ ["Reloading extensions"] })
  let w2 := if O.env.SERVE_APP then { w1 with appExtensions := [] } else w1
  { w2 with isInitialized := false }

/-- `ExtensionManager.reload` (`extensions.ts` lines 104-118): no-op when not
initialized, otherwise teardown followed by `initialize()` (whose default
options carry `schedule = true`). -/
def reload (O : Oracles) (w : World) : World × Except Unit Unit :=
  if w.isInitialized then initializeMgr O true (teardown O w)
  else (w, .ok ())

/-- Result of `install`, instrumented with whether the package installer was
invoked and how many reload cycles were triggered. -/
structure InstallResult where
  world : World
  result : Except Unit Bool
  installerCalled : Bool
  reloadsTriggered : Nat

/-- `ExtensionManager.install` (`extensions.ts` lines 120-130): reject a name
failing the pattern with no side effect, call the installer, return false on
installer failure, otherwise reload and return true (a reload failure
propagates). -/
def install (O : Oracles) (name : String) (w : World) : InstallResult :=
  if O.nameRegexTest name = false then ⟨w, .ok false, false, 0⟩
  else if O.installPackage name = false then ⟨w, .ok false, true, 0⟩
  else
    match reload O w with
    | (w1, .ok _) => ⟨w1, .ok true, true, 1⟩
    | (w1, .error e) => ⟨w1, .error e, true, 1⟩

/-- Observable outcome of one firing of a scheduled cron task. -/
structure CronFireResult where
  world : World
  handlerInvoked : Bool
  loggedErrors : List Unit
  propagated : Option Unit

/-- The callback passed to `schedule` by `registerHook` (`extensions.ts`
lines 249-257), applied at fire time: read the instance-wide schedule flag,
invoke the handler only when it is true, and catch and log a handler error.
The handler is extension code and is modelled by its outcome. -/
def fireCronTask (w : World) (handlerOutcome : Except Unit Unit) :
    CronFireResult :=
  if w.isScheduleHookEnabled then
    match handlerOutcome with
    | .ok _ => ⟨w, true, [], none⟩
    | .error e => ⟨{ w with log := w.log ++ ["cron handler error"] }, true, [e], none⟩
  else ⟨w, false, [], none⟩

/-- Ids of the scheduled tasks held by the cron records of a hook list. -/
def cronIds : List ApiHook → List Nat
  | [] => []
  | .cron _ t :: hs => t :: cronIds hs
  | .event _ _ _ :: hs => cronIds hs

/-- Event-name/handler pairs held by the event records of a hook list. -/
def eventPairs : List ApiHook → List (String × Nat)
  | [] => []
  | .cron _ _ :: hs => eventPairs hs
  | .event _ ev hd :: hs => (ev, hd) :: eventPairs hs

/-- Two worlds that agree on everything except the logger output. -/
def EqExceptLog (a b : World) : Prop :=
  a.isInitialized = b.isInitialized ∧ a.extensions = b.extensions ∧
  a.appExtensions = b.appExtensions ∧ a.apiHooks = b.apiHooks ∧
  a.apiEndpoints = b.apiEndpoints ∧ a.routerStack = b.routerStack ∧
  a.isScheduleHookEnabled = b.isScheduleHookEnabled ∧
  a.activeTasks = b.activeTasks ∧ a.nextTaskId = b.nextTaskId ∧
  a.emitter = b.emitter ∧ a.moduleCache = b.moduleCache

/-- Fields of the manager state that discovery and registration never write:
used to express frame conditions of the registration phase. -/
def RegPreserved (w w' : World) : Prop :=
  w'.isInitialized = w.isInitialized ∧
  w'.extensions = w.extensions ∧
  w'.appExtensions = w.appExtensions ∧
  w'.isScheduleHookEnabled = w.isScheduleHookEnabled ∧
  ∃ t, w'.log = w.log ++ t

/-- A fresh manager world: nothing discovered, nothing registered. -/
def W0 : World :=
  ⟨false, [], [], [], [], [], true, [], 0, [], [], []⟩

/-- A baseline oracle: API-only mode, empty discovery, all collaborators
succeed trivially. -/
def OBase : Oracles where
  env := ⟨false⟩
  ensureDirsOutcome := .ok ()
  packageExtensions := .ok []
  localExtensions := .ok []
  hookModule := fun _ => .ok []
  endpointModule := fun _ => .error ()
  cronValidate := fun _ => true
  sharedDepsOutcome := .ok ()
  rollupBundle := fun _ _ => .ok ""
  nameRegexTest := fun n => strStartsWith n "directus-extension-"
  installPackage := fun _ => true

/-- An already-initialized world with one cron record, one event record and
one endpoint record, as produced by a prior lifecycle generation. -/
def W1 : World where
  isInitialized := true
  extensions := []
  appExtensions := []
  apiHooks := [.cron "/ext/h/index.js" 0, .event "/ext/h/index.js" "items.create" 5]
  apiEndpoints := ["/ext/e/index.js"]
  routerStack := ["/e"]
  isScheduleHookEnabled := true
  activeTasks := [0]
  nextTaskId := 1
  emitter := [("items.create", 5)]
  moduleCache := ["/ext/h/index.js", "/ext/e/index.js"]
  log := []

/-- An already-initialized world with empty records (for guard tests). -/
def W2 : World :=
  ⟨true, [], [], [], [], [], true, [], 0, [], [], []⟩

/-- A stale hook extension descriptor left over from a prior generation. -/
def staleHook : Extension :=
  ⟨"stale-hook", .hook, "/ext/stale", some "index.js"⟩

/-- A world as `reload` leaves it when entering `initialize` again: not
initialized, but with the descriptor list of the prior generation. -/
def W3 : World :=
  ⟨false, [staleHook], [], [], [], [], true, [], 0, [], [], []⟩

/-- Oracle whose directory check fails while a stale hook module loads. -/
def O3 : Oracles :=
  { OBase with
    ensureDirsOutcome := .error ()
    hookModule := fun _ => .ok [("items.create", 7)] }

/-- Oracle in app-serving mode whose bundler always fails. -/
def O4 : Oracles :=
  { OBase with
    env := ⟨true⟩
    rollupBundle := fun _ _ => .error () }

/-- Oracle whose cron validation rejects every expression. -/
def O6 : Oracles :=
  { OBase with cronValidate := fun _ => false }

/-- Two discovered extensions used for listing tests. -/
def extA : Extension := ⟨"pkg-hook", .hook, "/node_modules/pkg-hook", none⟩

/-- A local endpoint extension used for listing tests. -/
def extB : Extension := ⟨"local-endpoint", .endpoint, "/ext/endpoints/local", some "index.js"⟩

/-- Oracle discovering one package extension and one local extension. -/
def O8 : Oracles :=
  { OBase with
    packageExtensions := .ok [extA]
    localExtensions := .ok [extB]
    hookModule := fun _ => .ok [] }

/-- An endpoint extension whose registration function throws. -/
def epBad : Extension := ⟨"bad-endpoint", .endpoint, "/ext/b", some "index.js"⟩

/-- A well-behaved endpoint extension exporting an object default. -/
def epGood : Extension := ⟨"good-endpoint", .endpoint, "/ext/g", some "index.js"⟩

/-- Oracle under which `epBad`'s registration function throws and `epGood`
loads an object export with id `custom`. -/
def O9 : Oracles :=
  { OBase with
    endpointModule := fun p =>
      if p = "/ext/b/index.js" then .ok (.fn (.error ()))
      else .ok (.obj "custom" (.ok ())) }

/-- An uninitialized world holding the two endpoint extensions. -/
def W9 : World :=
  ⟨false, [epBad, epGood], [], [], [], [], true, [], 0, [], [], []⟩

/-- The `unregisterHooks` loop touches only the scheduler, the event bus and
the require cache. -/
theorem unregisterFold_frame (hooks : List ApiHook) (w : World) :
    (hooks.foldl unregisterHookStep w).isInitialized = w.isInitialized ∧
    (hooks.foldl unregisterHookStep w).extensions = w.extensions ∧
    (hooks.foldl unregisterHookStep w).appExtensions = w.appExtensions ∧
    (hooks.foldl unregisterHookStep w).apiHooks = w.apiHooks ∧
    (hooks.foldl unregisterHookStep w).apiEndpoints = w.apiEndpoints ∧
    (hooks.foldl unregisterHookStep w).routerStack = w.routerStack ∧
    (hooks.foldl unregisterHookStep w).isScheduleHookEnabled = w.isScheduleHookEnabled ∧
    (hooks.foldl unregisterHookStep w).nextTaskId = w.nextTaskId ∧
    (hooks.foldl unregisterHookStep w).log = w.log := by
  induction hooks generalizing w with
  | nil => simp
  | cons h hs ih =>
    cases h <;> simpa [unregisterHookStep] using ih _

/-- Each cron record's task destruction removes exactly one occurrence of its
task id from the scheduler, counted over the whole loop. -/
theorem unregisterFold_activeTasks_count (hooks : List ApiHook) (w : World)
    (tid : Nat) :
    ((hooks.foldl unregisterHookStep w).activeTasks).count tid
      = w.activeTasks.count tid - (cronIds hooks).count tid := by
  induction hooks generalizing w with
  | nil => simp [cronIds]
  | cons h hs ih =>
    cases h with
    | cron p t =>
      simp only [List.foldl_cons, unregisterHookStep, cronIds, ih,
        List.count_cons]
      have : ((w.activeTasks.erase t).count tid)
          = w.activeTasks.count tid - if t == tid then 1 else 0 :=
        List.count_erase tid t w.activeTasks
      rw [this]
      cases ht : t == tid <;> simp <;> omega
    | event p ev hd =>
      simpa [unregisterHookStep, cronIds] using ih _

/-- Each event record's unsubscription removes exactly one occurrence of its
exact event/handler pair from the bus, counted over the whole loop. -/
theorem unregisterFold_emitter_count (hooks : List ApiHook) (w : World)
    (p : String × Nat) :
    ((hooks.foldl unregisterHookStep w).emitter).count p
      = w.emitter.count p - (eventPairs hooks).count p := by
  induction hooks generalizing w with
  | nil => simp [eventPairs]
  | cons h hs ih =>
    cases h with
    | cron q t =>
      simpa [unregisterHookStep, eventPairs] using ih _
    | event q ev hd =>
      simp only [List.foldl_cons, unregisterHookStep, eventPairs, ih,
        List.count_cons]
      have : ((w.emitter.erase (ev, hd)).count p)
          = w.emitter.count p - if (ev, hd) == p then 1 else 0 :=
        List.count_erase p (ev, hd) w.emitter
      rw [this]
      cases ht : (ev, hd) == p <;> simp <;> omega

/-- The cache-eviction loop of `unregisterEndpoints` touches only the require
cache. -/
theorem cacheFold_frame (ps : List String) (w : World) :
    ((ps.foldl (fun w1 p => { w1 with moduleCache := cacheDelete w1.moduleCache p }) w).isInitialized = w.isInitialized) ∧
    ((ps.foldl (fun w1 p => { w1 with moduleCache := cacheDelete w1.moduleCache p }) w).extensions = w.extensions) ∧
    ((ps.foldl (fun w1 p => { w1 with moduleCache := cacheDelete w1.moduleCache p }) w).appExtensions = w.appExtensions) ∧
    ((ps.foldl (fun w1 p => { w1 with moduleCache := cacheDelete w1.moduleCache p }) w).apiHooks = w.apiHooks) ∧
    ((ps.foldl (fun w1 p => { w1 with moduleCache := cacheDelete w1.moduleCache p }) w).apiEndpoints = w.apiEndpoints) ∧
    ((ps.foldl (fun w1 p => { w1 with moduleCache := cacheDelete w1.moduleCache p }) w).routerStack = w.routerStack) ∧
    ((ps.foldl (fun w1 p => { w1 with moduleCache := cacheDelete w1.moduleCache p }) w).isScheduleHookEnabled = w.isScheduleHookEnabled) ∧
    ((ps.foldl (fun w1 p => { w1 with moduleCache := cacheDelete w1.moduleCache p }) w).activeTasks = w.activeTasks) ∧
    ((ps.foldl (fun w1 p => { w1 with moduleCache := cacheDelete w1.moduleCache p }) w).nextTaskId = w.nextTaskId) ∧
    ((ps.foldl (fun w1 p => { w1 with moduleCache := cacheDelete w1.moduleCache p }) w).emitter = w.emitter) ∧
    ((ps.foldl (fun w1 p => { w1 with moduleCache := cacheDelete w1.moduleCache p }) w).log = w.log) := by
  induction ps generalizing w with
  | nil => simp
  | cons p ps ih => simpa using ih _

/-- Projections of `unregisterHooks`: the record list is emptied, the
scheduler and the event bus lose exactly the recorded occurrences, and every
other manager field is untouched. -/
theorem unregisterHooks_spec (w : World) :
    (unregisterHooks w).apiHooks = [] ∧
    (unregisterHooks w).apiEndpoints = w.apiEndpoints ∧
    (unregisterHooks w).isInitialized = w.isInitialized ∧
    (unregisterHooks w).appExtensions = w.appExtensions ∧
    (unregisterHooks w).routerStack = w.routerStack ∧
    (unregisterHooks w).extensions = w.extensions ∧
    (unregisterHooks w).isScheduleHookEnabled = w.isScheduleHookEnabled ∧
    (unregisterHooks w).log = w.log ∧
    (∀ tid, (unregisterHooks w).activeTasks.count tid
      = w.activeTasks.count tid - (cronIds w.apiHooks).count tid) ∧
    (∀ p, (unregisterHooks w).emitter.count p
      = w.emitter.count p - (eventPairs w.apiHooks).count p) := by
  obtain ⟨f1, f2, f3, f4, f5, f6, f7, f8, f9⟩ := unregisterFold_frame w.apiHooks w
  exact ⟨rfl, f5, f1, f3, f6, f2, f7, f9,
    unregisterFold_activeTasks_count w.apiHooks w,
    unregisterFold_emitter_count w.apiHooks w⟩

/-- Projections of `unregisterEndpoints`: the router stack and the endpoint
record list are cleared; every field except the require cache is untouched. -/
theorem unregisterEndpoints_spec (w : World) :
    (unregisterEndpoints w).apiEndpoints = [] ∧
    (unregisterEndpoints w).routerStack = [] ∧
    (unregisterEndpoints w).apiHooks = w.apiHooks ∧
    (unregisterEndpoints w).isInitialized = w.isInitialized ∧
    (unregisterEndpoints w).appExtensions = w.appExtensions ∧
    (unregisterEndpoints w).extensions = w.extensions ∧
    (unregisterEndpoints w).isScheduleHookEnabled = w.isScheduleHookEnabled ∧
    (unregisterEndpoints w).activeTasks = w.activeTasks ∧
    (unregisterEndpoints w).emitter = w.emitter ∧
    (unregisterEndpoints w).log = w.log := by
  obtain ⟨g1, g2, g3, g4, g5, g6, g7, g8, g9, g10, g11⟩ :=
    cacheFold_frame w.apiEndpoints w
  exact ⟨rfl, rfl, g4, g1, g3, g2, g7, g8, g10, g11⟩

/-- Characterization of the teardown half of `reload`: both record lists are
emptied, the initialized flag is cleared, and the scheduler and event bus
lose exactly the recorded occurrences. -/
theorem teardown_spec (O : Oracles) (w : World) :
    (teardown O w).apiHooks = [] ∧
    (teardown O w).apiEndpoints = [] ∧
    (teardown O w).isInitialized = false ∧
    (∀ tid, (teardown O w).activeTasks.count tid
      = w.activeTasks.count tid - (cronIds w.apiHooks).count tid) ∧
    (∀ p, (teardown O w).emitter.count p
      = w.emitter.count p - (eventPairs w.apiHooks).count p) := by
  obtain ⟨u1, u2, u3, u4, u5, u6, u7, u8, ua, ue⟩ :=
    unregisterHooks_spec { w with log := w.log ++ ["Reloading extensions"] }
  obtain ⟨v1, v2, v3, v4, v5, v6, v7, v8, v9, v10⟩ :=
    unregisterEndpoints_spec
      (unregisterHooks { w with log := w.log ++ ["Reloading extensions"] })
  refine ⟨?_, ?_, ?_, ?_, ?_⟩
  · cases hS : O.env.SERVE_APP <;> simp only [teardown, hS] <;> simp [v3, u1]
  · cases hS : O.env.SERVE_APP <;> simp only [teardown, hS] <;> simp [v1]
  · cases hS : O.env.SERVE_APP <;> simp [teardown, hS]
  · intro tid
    have hx : (teardown O w).activeTasks
        = (unregisterHooks { w with log := w.log ++ ["Reloading extensions"] }).activeTasks := by
      cases hS : O.env.SERVE_APP <;> simp only [teardown, hS] <;> simp [v8]
    rw [hx]
    exact ua tid
  · intro p
    have hx : (teardown O w).emitter
        = (unregisterHooks { w with log := w.log ++ ["Reloading extensions"] }).emitter := by
      cases hS : O.env.SERVE_APP <;> simp only [teardown, hS] <;> simp [v9]
    rw [hx]
    exact ue p

/-- `RegPreserved` is reflexive. -/
theorem regPreserved_refl (w : World) : RegPreserved w w :=
  ⟨rfl, rfl, rfl, rfl, [], by simp⟩

/-- `RegPreserved` is transitive. -/
theorem regPreserved_trans {a b c : World}
    (h1 : RegPreserved a b) (h2 : RegPreserved b c) : RegPreserved a c := by
  obtain ⟨x1, x2, x3, x4, t1, hl1⟩ := h1
  obtain ⟨y1, y2, y3, y4, t2, hl2⟩ := h2
  exact ⟨y1.trans x1, y2.trans x2, y3.trans x3, y4.trans x4, t1 ++ t2,
    by rw [hl2, hl1, List.append_assoc]⟩

/-- A pure log append preserves the registration frame. -/
theorem regPreserved_logAppend (w : World) (t : List String) :
    RegPreserved w { w with log := w.log ++ t } :=
  ⟨rfl, rfl, rfl, rfl, t, rfl⟩

/-- A left fold of frame-preserving steps preserves the frame. -/
theorem regPreserved_foldl {α : Type} (f : World → α → World)
    (hf : ∀ w a, RegPreserved w (f w a)) :
    ∀ (l : List α) (w : World), RegPreserved w (l.foldl f w)
  | [], w => regPreserved_refl w
  | a :: l, w =>
    regPreserved_trans (hf w a) (regPreserved_foldl f hf l (f w a))

/-- One hook entry registration never writes the frame fields. -/
theorem regPreserved_hookEntry (O : Oracles) (p : String) (w : World)
    (e : String × Nat) : RegPreserved w (registerHookEntry O p w e) := by
  unfold registerHookEntry RegPreserved
  split
  · split
    · exact ⟨rfl, rfl, rfl, rfl, _, rfl⟩
    · split
      · exact ⟨rfl, rfl, rfl, rfl, _, rfl⟩
      · exact ⟨rfl, rfl, rfl, rfl, [], by simp⟩
  · exact ⟨rfl, rfl, rfl, rfl, [], by simp⟩

/-- `registerHook` never writes the frame fields. -/
theorem regPreserved_registerHook (O : Oracles) (hk : Extension) (w : World) :
    RegPreserved w (registerHook O hk w).1 := by
  unfold registerHook
  split
  · exact regPreserved_refl w
  · exact regPreserved_trans
      (⟨rfl, rfl, rfl, rfl, [], by simp⟩ :
        RegPreserved w { w with moduleCache := cacheAdd w.moduleCache hk.resolvedPath })
      (regPreserved_foldl _ (fun w1 e => regPreserved_hookEntry O _ w1 e) _ _)

/-- The per-extension try/catch of `registerHooks` never writes the frame
fields. -/
theorem regPreserved_hookCaught (O : Oracles) (w : World) (hk : Extension) :
    RegPreserved w (registerHookCaught O w hk) := by
  have h := regPreserved_registerHook O hk w
  unfold registerHookCaught
  rcases hr : registerHook O hk w with ⟨w1, r⟩
  rw [hr] at h
  cases r with
  | ok u => exact h
  | error e => exact regPreserved_trans h (regPreserved_logAppend w1 _)

/-- `registerHooks` never writes the frame fields. -/
theorem regPreserved_registerHooks (O : Oracles) (w : World) :
    RegPreserved w (registerHooks O w) :=
  regPreserved_foldl _ (regPreserved_hookCaught O) _ w

/-- One endpoint registration never writes the frame fields. -/
theorem regPreserved_registerEndpoint (O : Oracles) (ep : Extension)
    (w : World) : RegPreserved w (registerEndpoint O ep w).1 := by
  unfold registerEndpoint
  split
  · exact regPreserved_refl w
  · split <;> split <;> exact ⟨rfl, rfl, rfl, rfl, [], by simp⟩

/-- The per-extension try/catch of `registerEndpoints` never writes the
frame fields. -/
theorem regPreserved_endpointCaught (O : Oracles) (w : World)
    (ep : Extension) : RegPreserved w (registerEndpointCaught O w ep) := by
  have h := regPreserved_registerEndpoint O ep w
  unfold registerEndpointCaught
  rcases hr : registerEndpoint O ep w with ⟨w1, r⟩
  rw [hr] at h
  cases r with
  | ok u => exact h
  | error e => exact regPreserved_trans h (regPreserved_logAppend w1 _)

/-- `registerEndpoints` never writes the frame fields. -/
theorem regPreserved_registerEndpoints (O : Oracles) (w : World) :
    RegPreserved w (registerEndpoints O w) :=
  regPreserved_foldl _ (regPreserved_endpointCaught O) _ w

/-- A failed discovery leaves every field but the log untouched. -/
theorem discoveryStep_fail (O : Oracles) (w : World)
    (hd : O.ensureDirsOutcome = .error () ∨ getExtensions O = .error ()) :
    discoveryStep O w = { w with log := w.log ++ ["Could not load extensions"] } := by
  unfold discoveryStep
  rcases hd with h | h
  · rw [h]
  · cases he : O.ensureDirsOutcome with
    | error e => rfl
    | ok u => rw [h]

/-- A successful discovery replaces exactly the descriptor list. -/
theorem discoveryStep_ok (O : Oracles) (w : World) (exts : List Extension)
    (h1 : O.ensureDirsOutcome = .ok ()) (h2 : getExtensions O = .ok exts) :
    discoveryStep O w = { w with extensions := exts } := by
  unfold discoveryStep
  rw [h1, h2]

/-- The tail of `initialize` reports success, marks the manager initialized
and only appends to the log otherwise. -/
theorem finishInit_spec (w : World) :
    (finishInit w).2 = .ok () ∧
    (finishInit w).1.isInitialized = true ∧
    (finishInit w).1.extensions = w.extensions ∧
    (finishInit w).1.apiHooks = w.apiHooks ∧
    (finishInit w).1.apiEndpoints = w.apiEndpoints ∧
    (finishInit w).1.routerStack = w.routerStack ∧
    (finishInit w).1.activeTasks = w.activeTasks ∧
    (finishInit w).1.emitter = w.emitter ∧
    (finishInit w).1.appExtensions = w.appExtensions ∧
    (finishInit w).1.isScheduleHookEnabled = w.isScheduleHookEnabled ∧
    (∃ t, (finishInit w).1.log = w.log ++ t) := by
  unfold finishInit
  split
  · exact ⟨rfl, rfl, rfl, rfl, rfl, rfl, rfl, rfl, rfl, rfl, _, rfl⟩
  · exact ⟨rfl, rfl, rfl, rfl, rfl, rfl, rfl, rfl, rfl, rfl, [], by simp⟩

/-- Discovery writes only the descriptor list and the log. -/
theorem discoveryStep_frame (O : Oracles) (w : World) :
    (discoveryStep O w).isInitialized = w.isInitialized ∧
    (discoveryStep O w).appExtensions = w.appExtensions ∧
    (discoveryStep O w).isScheduleHookEnabled = w.isScheduleHookEnabled ∧
    (discoveryStep O w).apiHooks = w.apiHooks ∧
    (discoveryStep O w).apiEndpoints = w.apiEndpoints ∧
    (discoveryStep O w).routerStack = w.routerStack ∧
    (discoveryStep O w).activeTasks = w.activeTasks ∧
    (discoveryStep O w).emitter = w.emitter ∧
    (discoveryStep O w).nextTaskId = w.nextTaskId ∧
    (discoveryStep O w).moduleCache = w.moduleCache := by
  unfold discoveryStep
  split
  · exact ⟨rfl, rfl, rfl, rfl, rfl, rfl, rfl, rfl, rfl, rfl⟩
  · split <;> exact ⟨rfl, rfl, rfl, rfl, rfl, rfl, rfl, rfl, rfl, rfl⟩

/-- The registration phase keeps the initialized flag, the bundle map, the
schedule flag it wrote, and the descriptor list chosen by discovery. -/
theorem registrationPhase_frame (O : Oracles) (s : Bool) (w : World) :
    (registrationPhase O s w).isInitialized = w.isInitialized ∧
    (registrationPhase O s w).appExtensions = w.appExtensions ∧
    (registrationPhase O s w).isScheduleHookEnabled = s ∧
    (registrationPhase O s w).extensions
      = (discoveryStep O { w with isScheduleHookEnabled := s }).extensions ∧
    (∃ t, (registrationPhase O s w).log
      = (discoveryStep O { w with isScheduleHookEnabled := s }).log ++ t) := by
  have hre : RegPreserved (discoveryStep O { w with isScheduleHookEnabled := s })
      (registrationPhase O s w) :=
    regPreserved_trans (regPreserved_registerHooks O _)
      (regPreserved_registerEndpoints O _)
  obtain ⟨p1, p2, p3, p4, t, hl⟩ := hre
  obtain ⟨d1, d2, d3, d4, d5, d6, d7, d8, d9, d10⟩ :=
    discoveryStep_frame O { w with isScheduleHookEnabled := s }
  exact ⟨p1.trans d1, p3.trans d2, p4.trans d3, p2, t, hl⟩

/-- Counting with the `BEq` instance derived from decidable equality agrees
with counting with any lawful `BEq` instance. -/
theorem count_with_decEq {α : Type} [DecidableEq α] [inst : BEq α]
    [LawfulBEq α] (a : α) (l : List α) :
    @List.count α instBEqOfDecidableEq a l = @List.count α inst a l := by
  induction l with
  | nil => rfl
  | cons b l ih =>
    rw [@List.count_cons α instBEqOfDecidableEq, @List.count_cons α inst, ih]
    by_cases h : b = a <;> simp [h]

/-- C1: a completed `reload` leaves no stale cron task and no stale
event-bus subscription from the prior lifecycle generation.  The teardown
world (the state `reload` hands to `initialize`, before anything is
re-registered — the first conjunct) has empty hook and endpoint record
lists, none of the recorded task ids is still scheduled, the event bus loses
exactly the recorded event/handler occurrences (exact handler identity), and
an event bus consisting of a base plus exactly the recorded subscriptions is
reduced to the base. -/
theorem reload_clears_prior_generation (O : Oracles) (w : World)
    (hInit : w.isInitialized = true) (hNd : w.activeTasks.Nodup) :
    reload O w = initializeMgr O true (teardown O w) ∧
    (teardown O w).apiHooks = [] ∧
    (teardown O w).apiEndpoints = [] ∧
    (∀ tid, tid ∈ cronIds w.apiHooks → tid ∉ (teardown O w).activeTasks) ∧
    (∀ p : String × Nat, (teardown O w).emitter.count p
      = w.emitter.count p - (eventPairs w.apiHooks).count p) ∧
    (∀ base : List (String × Nat),
      w.emitter.Perm (base ++ eventPairs w.apiHooks) →
      (teardown O w).emitter.Perm base) := by
  obtain ⟨t1, t2, t3, t4, t5⟩ := teardown_spec O w
  refine ⟨by simp [reload, hInit], t1, t2, ?_, t5, ?_⟩
  · intro tid htid
    have hle : w.activeTasks.count tid ≤ 1 :=
      List.nodup_iff_count_le_one.mp hNd tid
    have hge : 1 ≤ (cronIds w.apiHooks).count tid :=
      List.one_le_count_iff.mpr htid
    have hz : (teardown O w).activeTasks.count tid = 0 := by
      rw [t4 tid]; omega
    exact List.count_eq_zero.mp hz
  · intro base hperm
    refine List.perm_iff_count.mpr ?_
    intro p
    have hc := hperm.count_eq p
    simp only [count_with_decEq] at hc ⊢
    rw [List.count_append] at hc
    rw [t5 p, hc]
    omega

/-- Witness for C1 at a concrete prior generation with one cron record and
one event record. -/
theorem reload_clears_prior_generation_witness :
    (teardown OBase W1).apiHooks = [] :=
  (reload_clears_prior_generation OBase W1 (by decide) (by decide)).2.1

/-- C2 counterexample: a second `initialize({schedule: false})` on an
already-initialized manager with the schedule flag on does change the
manager state (the flag is written before the idempotency guard), so the
second call is not a pure no-op. -/
theorem second_init_not_noop_cex :
    W2.isInitialized = true ∧ (initializeMgr OBase false W2).1 ≠ W2 := by
  decide

/-- C2 (amended): a second `initialize(options)` without an intervening
reload performs no discovery, no registration and no bundling, and leaves
the manager state unchanged except that the schedule-enabled flag is set to
the passed option. -/
theorem second_init_updates_only_schedule_flag (O : Oracles) (s : Bool)
    (w : World) (h : w.isInitialized = true) :
    initializeMgr O s w = ({ w with isScheduleHookEnabled := s }, .ok ()) := by
  unfold initializeMgr
  simp [h]

/-- Witness for the amended C2 at a concrete initialized manager. -/
theorem second_init_updates_only_schedule_flag_witness :
    initializeMgr OBase false W2
      = ({ W2 with isScheduleHookEnabled := false }, .ok ()) :=
  second_init_updates_only_schedule_flag OBase false W2 rfl

/-- C5: in app-serving mode a bundler failure aborts `initialize`: the error
propagates (second component), the manager is not marked initialized, the
bundle map is unchanged, and the returned world is exactly the
post-registration world, so hook and endpoint registrations completed
earlier in the run remain in place. -/
theorem bundler_failure_aborts_init (O : Oracles) (s : Bool) (w : World)
    (hw : w.isInitialized = false)
    (hs : O.env.SERVE_APP = true)
    (hb : generateExtensionBundles O (registrationPhase O s w).extensions
      = .error ()) :
    initializeMgr O s w = (registrationPhase O s w, .error ()) ∧
    (registrationPhase O s w).isInitialized = false ∧
    (registrationPhase O s w).appExtensions = w.appExtensions := by
  obtain ⟨p1, p2, p3, p4, hl⟩ := registrationPhase_frame O s w
  refine ⟨?_, p1.trans hw, p2⟩
  unfold initializeMgr
  simp [hw, hs, hb]

/-- Witness for C5 with an always-failing bundler in app-serving mode. -/
theorem bundler_failure_aborts_init_witness :
    initializeMgr O4 true W0 = (registrationPhase O4 true W0, .error ()) :=
  (bundler_failure_aborts_init O4 true W0 rfl rfl rfl).1

/-- C7: the scheduled callback of a valid cron entry first checks the
instance-wide schedule flag and invokes the handler exactly when it is true,
never propagates a handler error (it logs it instead), and firing does not
change the registered tasks or hook records. -/
theorem cron_callback_gated_and_isolated (w : World) (o : Except Unit Unit) :
    (fireCronTask w o).handlerInvoked = w.isScheduleHookEnabled ∧
    (fireCronTask w o).propagated = none ∧
    (fireCronTask w o).world.activeTasks = w.activeTasks ∧
    (fireCronTask w o).world.apiHooks = w.apiHooks ∧
    (fireCronTask w o).world.isScheduleHookEnabled = w.isScheduleHookEnabled ∧
    (fireCronTask w o).loggedErrors
      = (if w.isScheduleHookEnabled then
          (match o with | .ok _ => [] | .error e => [e]) else []) := by
  unfold fireCronTask
  cases hf : w.isScheduleHookEnabled <;> cases o <;> simp [hf]

/-- C10: on an already-initialized manager, `initialize({schedule: b})`
always writes the schedule flag before the idempotency guard returns, leaves
every other field unchanged, and thereby gates cron execution at the next
fire time without a reload. -/
theorem init_flag_update_frame (O : Oracles) (b : Bool) (w : World)
    (h : w.isInitialized = true) :
    (initializeMgr O b w).2 = .ok () ∧
    (initializeMgr O b w).1.isScheduleHookEnabled = b ∧
    (initializeMgr O b w).1.isInitialized = w.isInitialized ∧
    (initializeMgr O b w).1.extensions = w.extensions ∧
    (initializeMgr O b w).1.apiHooks = w.apiHooks ∧
    (initializeMgr O b w).1.apiEndpoints = w.apiEndpoints ∧
    (initializeMgr O b w).1.appExtensions = w.appExtensions ∧
    (initializeMgr O b w).1.routerStack = w.routerStack ∧
    (initializeMgr O b w).1.activeTasks = w.activeTasks ∧
    (initializeMgr O b w).1.nextTaskId = w.nextTaskId ∧
    (initializeMgr O b w).1.emitter = w.emitter ∧
    (initializeMgr O b w).1.moduleCache = w.moduleCache ∧
    (initializeMgr O b w).1.log = w.log ∧
    (∀ o, (fireCronTask (initializeMgr O b w).1 o).handlerInvoked = b) := by
  have he : initializeMgr O b w = ({ w with isScheduleHookEnabled := b }, .ok ()) := by
    unfold initializeMgr
    simp [h]
  rw [he]
  refine ⟨rfl, rfl, rfl, rfl, rfl, rfl, rfl, rfl, rfl, rfl, rfl, rfl, rfl, ?_⟩
  intro o
  cases b <;> cases o <;> rfl

/-- Witness for C10: disabling the schedule flag on an initialized manager. -/
theorem init_flag_update_frame_witness :
    (initializeMgr OBase false W2).1.isScheduleHookEnabled = false :=
  (init_flag_update_frame OBase false W2 rfl).2.1

/-- With an empty descriptor list `registerHooks` does nothing. -/
theorem registerHooks_nil (O : Oracles) (w : World) (h : w.extensions = []) :
    registerHooks O w = w := by
  unfold registerHooks
  rw [h]
  rfl

/-- With an empty descriptor list `registerEndpoints` does nothing. -/
theorem registerEndpoints_nil (O : Oracles) (w : World)
    (h : w.extensions = []) : registerEndpoints O w = w := by
  unfold registerEndpoints
  rw [h]
  rfl

/-- A run of `initialize` on an uninitialized manager whose bundling (if
any) succeeds completes with success, marks the manager initialized, and
returns the registration-phase world up to a log suffix and the bundle
map. -/
theorem initializeMgr_ok_run (O : Oracles) (s : Bool) (w : World)
    (hw : w.isInitialized = false)
    (hb : O.env.SERVE_APP = true →
      ∃ bs, generateExtensionBundles O (registrationPhase O s w).extensions
        = .ok bs) :
    (initializeMgr O s w).2 = .ok () ∧
    (initializeMgr O s w).1.isInitialized = true ∧
    (initializeMgr O s w).1.extensions = (registrationPhase O s w).extensions ∧
    (initializeMgr O s w).1.apiHooks = (registrationPhase O s w).apiHooks ∧
    (initializeMgr O s w).1.apiEndpoints = (registrationPhase O s w).apiEndpoints ∧
    (initializeMgr O s w).1.routerStack = (registrationPhase O s w).routerStack ∧
    (initializeMgr O s w).1.activeTasks = (registrationPhase O s w).activeTasks ∧
    (initializeMgr O s w).1.emitter = (registrationPhase O s w).emitter ∧
    (∃ t, (initializeMgr O s w).1.log = (registrationPhase O s w).log ++ t) := by
  cases hS : O.env.SERVE_APP with
  | false =>
    have hrun : initializeMgr O s w = finishInit (registrationPhase O s w) := by
      unfold initializeMgr
      simp [hw, hS]
    obtain ⟨f1, f2, f3, f4, f5, f6, f7, f8, f9, f10, tf, hflog⟩ :=
      finishInit_spec (registrationPhase O s w)
    rw [hrun]
    exact ⟨f1, f2, f3, f4, f5, f6, f7, f8, tf, hflog⟩
  | true =>
    obtain ⟨bs, hbs⟩ := hb hS
    have hrun : initializeMgr O s w
        = finishInit { registrationPhase O s w with appExtensions := bs } := by
      unfold initializeMgr
      simp [hw, hS, hbs]
    obtain ⟨f1, f2, f3, f4, f5, f6, f7, f8, f9, f10, tf, hflog⟩ :=
      finishInit_spec { registrationPhase O s w with appExtensions := bs }
    rw [hrun]
    exact ⟨f1, f2, f3, f4, f5, f6, f7, f8, tf, hflog⟩

/-- C3 counterexample: when `initialize` runs again after a reload left a
nonempty descriptor list behind (reload never clears `this.extensions`), a
discovery failure does not behave like "zero extensions found": the stale
descriptors are re-registered. -/
theorem discovery_failure_zero_extensions_cex :
    O3.ensureDirsOutcome = .error () ∧
    W3.isInitialized = false ∧
    W3.apiHooks = [] ∧
    (initializeMgr O3 true W3).1.apiHooks ≠ [] :=
  ⟨rfl, rfl, rfl, by decide⟩

/-- C3 (amended): when ensuring directories or enumerating extensions
throws, the error is caught and logged and the descriptor list keeps its
previous value (empty on a fresh manager, in which case nothing is
registered); provided bundling (if any) succeeds, initialization completes
and marks the manager initialized instead of propagating the failure. -/
theorem discovery_failure_keeps_prior_list (O : Oracles) (s : Bool)
    (w : World) (hw : w.isInitialized = false)
    (hd : O.ensureDirsOutcome = .error () ∨ getExtensions O = .error ())
    (hb : O.env.SERVE_APP = true →
      ∃ bs, generateExtensionBundles O w.extensions = .ok bs) :
    (initializeMgr O s w).2 = .ok () ∧
    (initializeMgr O s w).1.isInitialized = true ∧
    (initializeMgr O s w).1.extensions = w.extensions ∧
    "Could not load extensions" ∈ (initializeMgr O s w).1.log ∧
    (w.extensions = [] →
      (initializeMgr O s w).1.apiHooks = w.apiHooks ∧
      (initializeMgr O s w).1.apiEndpoints = w.apiEndpoints ∧
      (initializeMgr O s w).1.routerStack = w.routerStack ∧
      (initializeMgr O s w).1.activeTasks = w.activeTasks ∧
      (initializeMgr O s w).1.emitter = w.emitter) := by
  have hdisc := discoveryStep_fail O { w with isScheduleHookEnabled := s } hd
  obtain ⟨p1, p2, p3, p4, tl, hlog⟩ := registrationPhase_frame O s w
  have hext : (registrationPhase O s w).extensions = w.extensions := by
    rw [p4, hdisc]
  have hb' : O.env.SERVE_APP = true →
      ∃ bs, generateExtensionBundles O (registrationPhase O s w).extensions
        = .ok bs := by
    intro h
    rw [hext]
    exact hb h
  obtain ⟨g1, g2, g3, g4, g5, g6, g7, g8, tg, hg⟩ :=
    initializeMgr_ok_run O s w hw hb'
  have hmem : "Could not load extensions" ∈ (registrationPhase O s w).log := by
    rw [hlog, hdisc]
    simp
  refine ⟨g1, g2, g3.trans hext, ?_, ?_⟩
  · rw [hg]
    exact List.mem_append_left _ hmem
  · intro hnil
    have hde : (discoveryStep O { w with isScheduleHookEnabled := s }).extensions
        = [] := by
      rw [hdisc]
      exact hnil
    have hrh : registerHooks O (discoveryStep O { w with isScheduleHookEnabled := s })
        = discoveryStep O { w with isScheduleHookEnabled := s } :=
      registerHooks_nil O _ hde
    have hre : registerEndpoints O (discoveryStep O { w with isScheduleHookEnabled := s })
        = discoveryStep O { w with isScheduleHookEnabled := s } :=
      registerEndpoints_nil O _ hde
    have hreg : registrationPhase O s w
        = discoveryStep O { w with isScheduleHookEnabled := s } := by
      unfold registrationPhase
      rw [hrh, hre]
    exact ⟨g4.trans (by rw [hreg, hdisc]), g5.trans (by rw [hreg, hdisc]),
      g6.trans (by rw [hreg, hdisc]), g7.trans (by rw [hreg, hdisc]),
      g8.trans (by rw [hreg, hdisc])⟩

/-- Witness for the amended C3 on a fresh manager with a failing directory
check. -/
theorem discovery_failure_keeps_prior_list_witness :
    (initializeMgr O3 true W0).1.isInitialized = true :=
  (discovery_failure_keeps_prior_list O3 true W0 rfl (Or.inl rfl)
    (fun h => absurd h (by decide))).2.1

/-- C8: after a successful `initialize` on a fresh manager,
`listExtensions` with no argument returns exactly the names of all
discovered extensions (package extensions followed by local extensions),
and with a type argument exactly the names of the discovered extensions of
that type.  `listExtensions` is a pure read on the world. -/
theorem listExtensions_after_init (O : Oracles) (s : Bool) (w : World)
    (pkg loc : List Extension)
    (hw : w.isInitialized = false)
    (hdirs : O.ensureDirsOutcome = .ok ())
    (hpkg : O.packageExtensions = .ok pkg)
    (hloc : O.localExtensions = .ok loc)
    (hb : O.env.SERVE_APP = true →
      ∃ bs, generateExtensionBundles O (pkg ++ loc) = .ok bs) :
    (initializeMgr O s w).2 = .ok () ∧
    listExtensions (initializeMgr O s w).1 none
      = (pkg ++ loc).map Extension.name ∧
    (∀ t, listExtensions (initializeMgr O s w).1 (some t)
      = ((pkg ++ loc).filter (fun e => e.type == t)).map Extension.name) := by
  have hget : getExtensions O = .ok (pkg ++ loc) := by
    unfold getExtensions
    rw [hpkg, hloc]
  have hdisc := discoveryStep_ok O { w with isScheduleHookEnabled := s }
    (pkg ++ loc) hdirs hget
  obtain ⟨p1, p2, p3, p4, tl, hlog⟩ := registrationPhase_frame O s w
  have hext : (registrationPhase O s w).extensions = pkg ++ loc := by
    rw [p4, hdisc]
  have hb' : O.env.SERVE_APP = true →
      ∃ bs, generateExtensionBundles O (registrationPhase O s w).extensions
        = .ok bs := by
    intro h
    rw [hext]
    exact hb h
  obtain ⟨g1, g2, g3, g4, g5, g6, g7, g8, tg, hg⟩ :=
    initializeMgr_ok_run O s w hw hb'
  have hfin : (initializeMgr O s w).1.extensions = pkg ++ loc := g3.trans hext
  refine ⟨g1, ?_, ?_⟩
  · unfold listExtensions
    rw [hfin]
  · intro t
    unfold listExtensions
    rw [hfin]

/-- Witness for C8: one package extension followed by one local extension. -/
theorem listExtensions_after_init_witness :
    listExtensions (initializeMgr O8 true W0).1 none
      = ([extA] ++ [extB]).map Extension.name :=
  (listExtensions_after_init O8 true W0 [extA] [extB] rfl rfl rfl rfl
    (fun h => absurd h (by decide))).2.1

/-- C4 counterexample: with a valid name and a successful installer, the
triggered reload can fail (app-serving mode, failing bundler on an
initialized manager); `install` then propagates the error instead of
returning true. -/
theorem install_reload_failure_cex :
    O4.nameRegexTest "directus-extension-x" = true ∧
    O4.installPackage "directus-extension-x" = true ∧
    W2.isInitialized = true ∧
    (install O4 "directus-extension-x" W2).result = .error () :=
  ⟨by decide, rfl, rfl, rfl⟩

/-- C4 (amended): an invalid name is rejected with no installer call, no
reload and no state change; on installer failure `install` returns false
without reloading; on installer success exactly one reload is triggered and
`install` returns true when that reload completes, while a reload failure
propagates out of `install` as an error instead of a true result. -/
theorem install_validation_and_reload (O : Oracles) (name : String)
    (w : World) :
    (O.nameRegexTest name = false →
      install O name w = ⟨w, .ok false, false, 0⟩) ∧
    (O.nameRegexTest name = true → O.installPackage name = false →
      install O name w = ⟨w, .ok false, true, 0⟩) ∧
    (O.nameRegexTest name = true → O.installPackage name = true →
      (install O name w).reloadsTriggered = 1 ∧
      (install O name w).installerCalled = true ∧
      (install O name w).world = (reload O w).1 ∧
      ((reload O w).2 = .ok () → (install O name w).result = .ok true) ∧
      ((reload O w).2 = .error () → (install O name w).result = .error ())) := by
  refine ⟨?_, ?_, ?_⟩
  · intro h
    unfold install
    simp [h]
  · intro h1 h2
    unfold install
    simp [h1, h2]
  · intro h1 h2
    unfold install
    simp only [h1, h2]
    rcases hr : reload O w with ⟨w1, r⟩
    cases r with
    | ok u =>
      refine ⟨by simp, by simp, by simp [hr], fun _ => by simp, fun habs => ?_⟩
      simp at habs
    | error e =>
      refine ⟨by simp, by simp, by simp [hr], fun habs => ?_, fun _ => by simp⟩
      simp at habs

/-- Witness for the amended C4: an invalid name is rejected without side
effects. -/
theorem install_validation_and_reload_witness :
    install OBase "bad name!" W0
      = ⟨W0, .ok false, false, 0⟩ :=
  (install_validation_and_reload OBase "bad name!" W0).1 (by decide)

/-- A single endpoint registration only appends to the shared router
stack. -/
theorem registerEndpoint_stack (O : Oracles) (ep : Extension) (w : World) :
    ∃ t, (registerEndpoint O ep w).1.routerStack = w.routerStack ++ t := by
  unfold registerEndpoint
  split
  · exact ⟨[], by simp⟩
  · split <;> split <;> exact ⟨_, rfl⟩

/-- The caught form of a single endpoint registration only appends to the
shared router stack. -/
theorem registerEndpointCaught_stack (O : Oracles) (w : World)
    (ep : Extension) :
    ∃ t, (registerEndpointCaught O w ep).routerStack = w.routerStack ++ t := by
  obtain ⟨t, ht⟩ := registerEndpoint_stack O ep w
  unfold registerEndpointCaught
  rcases hr : registerEndpoint O ep w with ⟨w1, r⟩
  rw [hr] at ht
  cases r with
  | ok u => exact ⟨t, ht⟩
  | error e => exact ⟨t, ht⟩

/-- The endpoint registration loop only appends to the shared router
stack. -/
theorem endpointsFold_stack_mono (O : Oracles) :
    ∀ (exts : List Extension) (w : World),
    ∃ t, ((exts.foldl (registerEndpointCaught O) w).routerStack)
      = w.routerStack ++ t
  | [], w => ⟨[], by simp⟩
  | a :: rest, w => by
    obtain ⟨t1, h1⟩ := registerEndpointCaught_stack O w a
    obtain ⟨t2, h2⟩ :=
      endpointsFold_stack_mono O rest (registerEndpointCaught O w a)
    exact ⟨t1 ++ t2, by rw [List.foldl_cons, h2, h1, List.append_assoc]⟩

/-- When the endpoint module loads, the scoped router is mounted at the
derived route name whatever the registration function then does. -/
theorem registerEndpoint_mounts (O : Oracles) (ep : Extension)
    (mod : EndpointConfig) (w : World)
    (hmod : O.endpointModule ep.resolvedPath = .ok mod) :
    (registerEndpoint O ep w).1.routerStack
      = w.routerStack ++ ["/" ++ endpointRouteName ep mod] := by
  unfold registerEndpoint
  rw [hmod]
  cases mod with
  | fn r => cases r <;> rfl
  | obj i r => cases r <;> rfl

/-- The caught form still mounts the scoped router when the module loads. -/
theorem registerEndpointCaught_mounts (O : Oracles) (w : World)
    (ep : Extension) (mod : EndpointConfig)
    (hmod : O.endpointModule ep.resolvedPath = .ok mod) :
    (registerEndpointCaught O w ep).routerStack
      = w.routerStack ++ ["/" ++ endpointRouteName ep mod] := by
  have h := registerEndpoint_mounts O ep mod w hmod
  unfold registerEndpointCaught
  rcases hr : registerEndpoint O ep w with ⟨w1, r⟩
  rw [hr] at h
  cases r with
  | ok u => exact h
  | error e => exact h

/-- Any member of the endpoint loop whose module loads ends up mounted,
whatever the other extensions do. -/
theorem endpointsFold_mount_mem (O : Oracles) (ep : Extension)
    (mod : EndpointConfig)
    (hmod : O.endpointModule ep.resolvedPath = .ok mod) :
    ∀ (exts : List Extension) (w : World), ep ∈ exts →
    ("/" ++ endpointRouteName ep mod) ∈
      ((exts.foldl (registerEndpointCaught O) w).routerStack)
  | a :: rest, w, hmem => by
    rcases List.mem_cons.mp hmem with heq | hmem2
    · subst heq
      obtain ⟨t, ht⟩ :=
        endpointsFold_stack_mono O rest (registerEndpointCaught O w ep)
      rw [List.foldl_cons, ht, registerEndpointCaught_mounts O w ep mod hmod]
      simp
    · rw [List.foldl_cons]
      exact endpointsFold_mount_mem O ep mod hmod rest _ hmem2

/-- C9: an endpoint extension whose default export is a plain function is
mounted at a path derived from the extension name, an object export at a
path derived from its id, both under `/<mount-name>` on the shared router
(first conjunct, covering both shapes through `endpointRouteName`); and
whatever the other endpoint extensions do — including a throwing
registration function — every endpoint extension of the manager whose
module loads is mounted by `registerEndpoints` (second conjunct). -/
theorem endpoint_mount_names_and_isolation (O : Oracles) (ep : Extension)
    (mod : EndpointConfig) (w : World)
    (hmod : O.endpointModule ep.resolvedPath = .ok mod) :
    (registerEndpoint O ep w).1.routerStack
      = w.routerStack ++ ["/" ++ endpointRouteName ep mod] ∧
    (∀ wS : World, ep ∈ wS.extensions → ep.type = .endpoint →
      ("/" ++ endpointRouteName ep mod) ∈ (registerEndpoints O wS).routerStack) := by
  refine ⟨registerEndpoint_mounts O ep mod w hmod, ?_⟩
  intro wS hmem htype
  unfold registerEndpoints
  refine endpointsFold_mount_mem O ep mod hmod _ _ ?_
  rw [List.mem_filter]
  exact ⟨hmem, by rw [htype]; rfl⟩

/-- Witness for C9: the well-behaved object-export endpoint is mounted at
its id even though the sibling endpoint extension throws while
registering. -/
theorem endpoint_mount_names_and_isolation_witness :
    ("/" ++ endpointRouteName epGood (.obj "custom" (.ok ())))
      ∈ (registerEndpoints O9 W9).routerStack :=
  (endpoint_mount_names_and_isolation O9 epGood (.obj "custom" (.ok ())) W0
    rfl).2 W9 (by decide) rfl

/-- Equation of `registerHookEntry` on a cron-marked key whose expression is
absent or rejected by validation: a pure log append. -/
theorem registerHookEntry_cron_invalid (O : Oracles) (p : String)
    (e : String × Nat) (w : World)
    (hk : strStartsWith e.1 "cron(" = true)
    (hbad : ∀ c, matchBetweenParens e.1 = some c → O.cronValidate c = false) :
    registerHookEntry O p w e
      = { w with log := w.log ++ [cronWarnMsg (matchBetweenParens e.1)] } := by
  unfold registerHookEntry
  rw [if_pos hk]
  cases hm : matchBetweenParens e.1 with
  | none => rfl
  | some c => simp [hbad c hm]

/-- Equation of `registerHookEntry` on a cron-marked key whose expression
validates: a task is scheduled and recorded. -/
theorem registerHookEntry_cron_valid (O : Oracles) (p : String)
    (e : String × Nat) (w : World) (c : String)
    (hk : strStartsWith e.1 "cron(" = true)
    (hm : matchBetweenParens e.1 = some c)
    (hv : O.cronValidate c = true) :
    registerHookEntry O p w e
      = { w with
          activeTasks := w.activeTasks ++ [w.nextTaskId]
          apiHooks := w.apiHooks ++ [.cron p w.nextTaskId]
          nextTaskId := w.nextTaskId + 1 } := by
  unfold registerHookEntry
  rw [if_pos hk, hm]
  simp [hv]

/-- Equation of `registerHookEntry` on a plain event key: the handler is
subscribed as-is and recorded. -/
theorem registerHookEntry_event (O : Oracles) (p : String)
    (e : String × Nat) (w : World)
    (hk : strStartsWith e.1 "cron(" = false) :
    registerHookEntry O p w e
      = { w with
          emitter := w.emitter ++ [(e.1, e.2)]
          apiHooks := w.apiHooks ++ [.event p e.1 e.2] } := by
  unfold registerHookEntry
  rw [if_neg (by simp [hk])]

/-- Hook entry registration is insensitive to the accumulated log. -/
theorem eqExceptLog_hookEntry_cong (O : Oracles) (p : String)
    (e : String × Nat) {a b : World} (h : EqExceptLog a b) :
    EqExceptLog (registerHookEntry O p a e) (registerHookEntry O p b e) := by
  obtain ⟨h1, h2, h3, h4, h5, h6, h7, h8, h9, h10, h11⟩ := h
  by_cases hc : strStartsWith e.1 "cron(" = true
  · cases hm : matchBetweenParens e.1 with
    | none =>
      have hbad : ∀ c, matchBetweenParens e.1 = some c →
          O.cronValidate c = false := by
        intro c hcc
        rw [hm] at hcc
        cases hcc
      rw [registerHookEntry_cron_invalid O p e a hc hbad,
        registerHookEntry_cron_invalid O p e b hc hbad]
      exact ⟨h1, h2, h3, h4, h5, h6, h7, h8, h9, h10, h11⟩
    | some c =>
      cases hv : O.cronValidate c with
      | false =>
        have hbad : ∀ c2, matchBetweenParens e.1 = some c2 →
            O.cronValidate c2 = false := by
          intro c2 hcc
          rw [hm] at hcc
          cases hcc
          exact hv
        rw [registerHookEntry_cron_invalid O p e a hc hbad,
          registerHookEntry_cron_invalid O p e b hc hbad]
        exact ⟨h1, h2, h3, h4, h5, h6, h7, h8, h9, h10, h11⟩
      | true =>
        rw [registerHookEntry_cron_valid O p e a c hc hm hv,
          registerHookEntry_cron_valid O p e b c hc hm hv]
        exact ⟨h1, h2, h3, by simp [h4, h9], h5, h6, h7, by simp [h8, h9],
          by simp [h9], h10, h11⟩
  · have hc2 : strStartsWith e.1 "cron(" = false := by simpa using hc
    rw [registerHookEntry_event O p e a hc2, registerHookEntry_event O p e b hc2]
    exact ⟨h1, h2, h3, by simp [h4], h5, h6, h7, h8, h9, by simp [h10], h11⟩

/-- The hook entries loop is insensitive to the accumulated log. -/
theorem eqExceptLog_hookEntriesFold_cong (O : Oracles) (p : String) :
    ∀ (es : List (String × Nat)) (a b : World), EqExceptLog a b →
    EqExceptLog (es.foldl (registerHookEntry O p) a)
      (es.foldl (registerHookEntry O p) b)
  | [], a, b, h => h
  | e :: es, a, b, h =>
    eqExceptLog_hookEntriesFold_cong O p es _ _
      (eqExceptLog_hookEntry_cong O p e h)

/-- `registerHook` is insensitive to the accumulated log, in both its world
and its thrown-or-not outcome. -/
theorem eqExceptLog_registerHook_cong (O : Oracles) (hk : Extension)
    {a b : World} (h : EqExceptLog a b) :
    EqExceptLog (registerHook O hk a).1 (registerHook O hk b).1 ∧
    (registerHook O hk a).2 = (registerHook O hk b).2 := by
  unfold registerHook
  cases hm : O.hookModule hk.resolvedPath with
  | error e => exact ⟨h, rfl⟩
  | ok evs =>
    obtain ⟨h1, h2, h3, h4, h5, h6, h7, h8, h9, h10, h11⟩ := h
    refine ⟨?_, rfl⟩
    exact eqExceptLog_hookEntriesFold_cong O _ evs _ _
      ⟨h1, h2, h3, h4, h5, h6, h7, h8, h9, h10, by simp [h11]⟩

/-- The per-extension try/catch of `registerHooks` is insensitive to the
accumulated log. -/
theorem eqExceptLog_hookCaught_cong (O : Oracles) (hk : Extension)
    {a b : World} (h : EqExceptLog a b) :
    EqExceptLog (registerHookCaught O a hk) (registerHookCaught O b hk) := by
  obtain ⟨hW, hR⟩ := eqExceptLog_registerHook_cong O hk h
  unfold registerHookCaught
  rcases ha : registerHook O hk a with ⟨wa, ra⟩
  rcases hb2 : registerHook O hk b with ⟨wb, rb⟩
  rw [ha, hb2] at hW
  rw [ha, hb2] at hR
  cases ra with
  | ok u =>
    cases rb with
    | ok v => exact hW
    | error f => simp at hR
  | error e =>
    cases rb with
    | ok v => simp at hR
    | error f => exact hW

/-- The extensions loop of `registerHooks` is insensitive to the
accumulated log. -/
theorem eqExceptLog_hooksFold_cong (O : Oracles) :
    ∀ (exts : List Extension) (a b : World), EqExceptLog a b →
    EqExceptLog (exts.foldl (registerHookCaught O) a)
      (exts.foldl (registerHookCaught O) b)
  | [], a, b, h => h
  | hk :: exts, a, b, h =>
    eqExceptLog_hooksFold_cong O exts _ _ (eqExceptLog_hookCaught_cong O hk h)

/-- `registerHooks` is insensitive to the accumulated log: two worlds equal
except for the log register the same hooks. -/
theorem eqExceptLog_registerHooks_cong (O : Oracles) {a b : World}
    (h : EqExceptLog a b) :
    EqExceptLog (registerHooks O a) (registerHooks O b) := by
  have hext : a.extensions = b.extensions := h.2.1
  unfold registerHooks
  rw [hext]
  exact eqExceptLog_hooksFold_cong O _ _ _ h

/-- C6: a hook entry whose key carries the cron marker but whose expression
is absent or fails cron validation is logged and skipped as a pure log
append — no task is scheduled, nothing is recorded, nothing is subscribed
(first conjunct); processing entries never throws out of `registerHook`
once the module has loaded (second conjunct); every other entry of the same
extension still registers exactly as it would without the bad entry (third
conjunct, equality up to the log); and hook registration as a whole is
insensitive to the accumulated log, so every other hook extension also still
registers (fourth conjunct). -/
theorem invalid_cron_entry_skipped (O : Oracles) (p : String)
    (e : String × Nat)
    (hk : strStartsWith e.1 "cron(" = true)
    (hbad : ∀ c, matchBetweenParens e.1 = some c → O.cronValidate c = false) :
    (∀ w : World, registerHookEntry O p w e
      = { w with log := w.log ++ [cronWarnMsg (matchBetweenParens e.1)] }) ∧
    (∀ (hkExt : Extension) (w : World) (evs : List (String × Nat)),
      O.hookModule hkExt.resolvedPath = .ok evs →
      (registerHook O hkExt w).2 = .ok ()) ∧
    (∀ (pre post : List (String × Nat)) (w : World),
      EqExceptLog ((pre ++ e :: post).foldl (registerHookEntry O p) w)
        ((pre ++ post).foldl (registerHookEntry O p) w)) ∧
    (∀ a b : World, EqExceptLog a b →
      EqExceptLog (registerHooks O a) (registerHooks O b)) := by
  have c1 : ∀ w : World, registerHookEntry O p w e
      = { w with log := w.log ++ [cronWarnMsg (matchBetweenParens e.1)] } :=
    fun w => registerHookEntry_cron_invalid O p e w hk hbad
  refine ⟨c1, ?_, ?_, fun a b h => eqExceptLog_registerHooks_cong O h⟩
  · intro hkExt w evs hmod
    unfold registerHook
    rw [hmod]
  · intro pre post w
    rw [List.foldl_append, List.foldl_append, List.foldl_cons]
    rw [c1 (pre.foldl (registerHookEntry O p) w)]
    exact eqExceptLog_hookEntriesFold_cong O p post _ _
      ⟨rfl, rfl, rfl, rfl, rfl, rfl, rfl, rfl, rfl, rfl, rfl⟩

/-- Witness for C6: a rejected cron expression is a pure log append. -/
theorem invalid_cron_entry_skipped_witness :
    registerHookEntry O6 "/ext/h/index.js" W0 ("cron(bad)", 3)
      = { W0 with log := W0.log ++ [cronWarnMsg (matchBetweenParens "cron(bad)")] } :=
  (invalid_cron_entry_skipped O6 "/ext/h/index.js" ("cron(bad)", 3)
    (by decide) (fun c _ => rfl)).1 W0

end Extensions
